import Mathlib

/-!
Shallow embedding of the windows-ocr session layer (src/__init__.py).

Python strings are modelled as `List Char` (`PyStr`); `str.strip()` is
`pyStrip`; the substring test `a in b` is `hasSub`.  The PowerShell host
process is modelled by `Proc`: `writeOk` says whether the stdin pipe is
still writable (a write on a dead pipe raises, caught by the `except`
branch of `ocr_image`), and `stdout` is the list of lines the host
delivers before end-of-stream (Python's `readline` returns `''` once the
stream is exhausted).  Side effects that matter to the claims (temp-file
creation, deletion, line writes, spawn, terminate) are recorded as an
explicit event trace.
-/

namespace WinOCR

abbrev PyStr := List Char

def str (s : String) : PyStr := s.data

/-- The whitespace test used by Python's `str.strip`. -/
def ws : Char → Bool := Char.isWhitespace

/-- Python `s.strip()`: drop leading whitespace, then trailing whitespace. -/
def pyStrip (s : PyStr) : PyStr :=
  (s.dropWhile ws).rdropWhile ws

/-- Python's substring operator `needle in hay`. -/
def hasSub (needle : PyStr) : PyStr → Bool
  | [] => needle.isPrefixOf []
  | c :: rest => needle.isPrefixOf (c :: rest) || hasSub needle rest

section DropWhileLemmas

variable {α : Type} (p : α → Bool)

theorem not_p_head_of_dropWhile_eq {c : α} {r : List α}
    (h : (c :: r).dropWhile p = c :: r) : p c = false := by
  have := List.dropWhile_eq_self_iff.mp h (by simp)
  simpa using this

theorem dropWhile_eq_self_append {u : List α} (v : List α)
    (h : u.dropWhile p = u) (hne : u ≠ []) :
    (u ++ v).dropWhile p = u ++ v := by
  match u with
  | [] => exact absurd rfl hne
  | c :: r =>
    have hc := not_p_head_of_dropWhile_eq p h
    rw [List.cons_append, List.dropWhile_cons, if_neg (by simp [hc])]

theorem dropWhile_prefix_eq {l₁ t : List α} (hpre : l₁ <+: t)
    (h : t.dropWhile p = t) : l₁.dropWhile p = l₁ := by
  match l₁, hpre with
  | [], _ => rfl
  | c :: r, ⟨s, hs⟩ =>
    subst hs
    have h2 : (c :: (r ++ s)).dropWhile p = c :: (r ++ s) := h
    have hc := not_p_head_of_dropWhile_eq p h2
    rw [List.dropWhile_cons, if_neg (by simp [hc])]

theorem rdropWhile_append_eq_self (u : List α) {v : List α}
    (h : v.rdropWhile p = v) (hne : v ≠ []) :
    (u ++ v).rdropWhile p = u ++ v := by
  unfold List.rdropWhile at h ⊢
  rw [List.reverse_append]
  have hv : v.reverse.dropWhile p = v.reverse := by
    have := congrArg List.reverse h
    rwa [List.reverse_reverse] at this
  rw [dropWhile_eq_self_append p u.reverse hv (by simpa using hne)]
  rw [← List.reverse_append]
  exact List.reverse_reverse _

end DropWhileLemmas

theorem pyStrip_nil : pyStrip [] = [] := rfl

/-- The result of `pyStrip` has no leading whitespace. -/
theorem pyStrip_dropWhile (s : PyStr) :
    (pyStrip s).dropWhile ws = pyStrip s := by
  unfold pyStrip
  exact dropWhile_prefix_eq ws (List.rdropWhile_prefix ws _)
    (List.dropWhile_idempotent ws s)

/-- The result of `pyStrip` has no trailing whitespace. -/
theorem pyStrip_rdropWhile (s : PyStr) :
    (pyStrip s).rdropWhile ws = pyStrip s :=
  List.rdropWhile_idempotent ws _

/-- A list with no leading and no trailing whitespace is a `pyStrip` fixed point. -/
theorem pyStrip_of_stripped {u : PyStr} (h1 : u.dropWhile ws = u)
    (h2 : u.rdropWhile ws = u) : pyStrip u = u := by
  rw [pyStrip, h1, h2]

theorem pyStrip_idem (s : PyStr) : pyStrip (pyStrip s) = pyStrip s :=
  pyStrip_of_stripped (pyStrip_dropWhile s) (pyStrip_rdropWhile s)

theorem pyStrip_sublist (s : PyStr) : List.Sublist (pyStrip s) s :=
  ((List.rdropWhile_prefix ws _).sublist).trans (List.dropWhile_suffix ws).sublist

/-- `pyStrip` only removes characters. -/
theorem mem_pyStrip {c : Char} {s : PyStr} (h : c ∈ pyStrip s) : c ∈ s :=
  (pyStrip_sublist s).mem h

/-! ### The response read loop of `ocr_image` (src/__init__.py lines 226-236)

The loop is `line = self.process.stdout.readline().strip(); if not line:
break; output += line + '\n'` followed by `output.strip()`.  `readLines`
is the list of stripped lines the loop appends before it breaks;
`outputAcc` is the accumulated `output` string; `ocrOutput` is the value
`output.strip()` the call returns.  At end-of-stream `readline` returns
`''`, which strips to the empty string, so the loop also breaks there. -/

/-- The stripped, nonempty lines collected by the read loop, in order.
The loop stops at the first whitespace-only line or at end-of-stream. -/
def readLines : List PyStr → List PyStr
  | [] => []
  | l :: rest => if pyStrip l = [] then [] else pyStrip l :: readLines rest

/-- The `output` accumulator: each collected line followed by a newline. -/
def outputAcc : List PyStr → PyStr
  | [] => []
  | l :: ls => l ++ '\n' :: outputAcc ls

/-- `'\n'.join(lines)`: the collected lines joined by single newlines. -/
def joinNl : List PyStr → PyStr
  | [] => []
  | [l] => l
  | l :: l' :: ls => l ++ '\n' :: joinNl (l' :: ls)

/-- The string `ocr_image` builds from the host's stdout lines:
`output.strip()` where `output` accumulates `line + '\n'`. -/
def ocrOutput (stream : List PyStr) : PyStr :=
  pyStrip (outputAcc (readLines stream))

/-- Python `s.split('\n')` over char lists. -/
def splitOnNl : PyStr → List PyStr
  | [] => [[]]
  | c :: rest =>
      if c = '\n' then [] :: splitOnNl rest
      else
        match splitOnNl rest with
        | [] => [[c]]
        | l :: ls => (c :: l) :: ls

/-- The constituent lines of a result string; the empty result has none. -/
def linesOf (s : PyStr) : List PyStr :=
  if s = [] then [] else splitOnNl s

theorem joinNl_cons_cons (l l' : PyStr) (ls : List PyStr) :
    joinNl (l :: l' :: ls) = l ++ '\n' :: joinNl (l' :: ls) := rfl

theorem joinNl_ne_nil {l : PyStr} (ls : List PyStr) (h : l ≠ []) :
    joinNl (l :: ls) ≠ [] := by
  cases ls with
  | nil => exact h
  | cons l' ls' =>
    rw [joinNl_cons_cons]
    intro hcontra
    exact h (List.append_eq_nil.mp hcontra).1

theorem outputAcc_eq (l : PyStr) (ls : List PyStr) :
    outputAcc (l :: ls) = joinNl (l :: ls) ++ ['\n'] := by
  induction ls generalizing l with
  | nil => rfl
  | cons l' ls' ih =>
    rw [outputAcc, ih l', joinNl_cons_cons]
    simp

/-- Every line `readLines` collects is nonempty, fully stripped, and is the
strip of some line of the stream. -/
theorem readLines_spec (stream : List PyStr) :
    ∀ l ∈ readLines stream, l ≠ [] ∧ l.dropWhile ws = l ∧ l.rdropWhile ws = l ∧
      ∃ raw ∈ stream, l = pyStrip raw := by
  induction stream with
  | nil => intro l h; exact absurd h (by simp [readLines])
  | cons l₀ rest ih =>
    intro l hl
    rw [readLines] at hl
    by_cases h0 : pyStrip l₀ = []
    · rw [if_pos h0] at hl; exact absurd hl (by simp)
    · rw [if_neg h0] at hl
      rcases List.mem_cons.mp hl with heq | hmem
      · subst heq
        refine ⟨h0, ?_, ?_, l₀, List.mem_cons_self _ _, rfl⟩
        · have := pyStrip_dropWhile l₀; rwa [pyStrip] at this ⊢
        · have := pyStrip_rdropWhile l₀; rwa [pyStrip] at this ⊢
      · obtain ⟨h1, h2, h3, raw, hraw, h4⟩ := ih l hmem
        exact ⟨h1, h2, h3, raw, List.mem_cons_of_mem _ hraw, h4⟩

theorem joinNl_dropWhile {ls : List PyStr}
    (h : ∀ l ∈ ls, l ≠ [] ∧ l.dropWhile ws = l) :
    (joinNl ls).dropWhile ws = joinNl ls := by
  cases ls with
  | nil => rfl
  | cons a ls' =>
    obtain ⟨ha1, ha2⟩ := h a (List.mem_cons_self _ _)
    cases ls' with
    | nil => exact ha2
    | cons b ls'' =>
      rw [joinNl_cons_cons]
      exact dropWhile_eq_self_append ws _ ha2 ha1

theorem joinNl_rdropWhile {ls : List PyStr}
    (h : ∀ l ∈ ls, l ≠ [] ∧ l.rdropWhile ws = l) :
    (joinNl ls).rdropWhile ws = joinNl ls := by
  induction ls with
  | nil => rfl
  | cons a ls' ih =>
    cases ls' with
    | nil => exact (h a (List.mem_cons_self _ _)).2
    | cons b ls'' =>
      rw [joinNl_cons_cons]
      have hb := ih (fun l hl => h l (List.mem_cons_of_mem _ hl))
      have hbne : joinNl (b :: ls'') ≠ [] :=
        joinNl_ne_nil ls'' (h b (by simp)).1
      have : a ++ '\n' :: joinNl (b :: ls'') = (a ++ ['\n']) ++ joinNl (b :: ls'') := by
        simp
      rw [this]
      exact rdropWhile_append_eq_self ws _ hb hbne

/-- Stripping the newline-terminated accumulation of stripped nonempty lines
yields exactly the newline-join of those lines. -/
theorem pyStrip_outputAcc {ls : List PyStr}
    (h : ∀ l ∈ ls, l ≠ [] ∧ l.dropWhile ws = l ∧ l.rdropWhile ws = l) :
    pyStrip (outputAcc ls) = joinNl ls := by
  cases ls with
  | nil => rfl
  | cons a ls' =>
    rw [outputAcc_eq, pyStrip]
    have hJ : joinNl (a :: ls') ≠ [] := joinNl_ne_nil ls' (h a (by simp)).1
    have hdrop : (joinNl (a :: ls')).dropWhile ws = joinNl (a :: ls') :=
      joinNl_dropWhile (fun l hl => ⟨(h l hl).1, (h l hl).2.1⟩)
    rw [dropWhile_eq_self_append ws _ hdrop hJ]
    rw [List.rdropWhile_concat_pos ws _ '\n' (by decide)]
    exact joinNl_rdropWhile (fun l hl => ⟨(h l hl).1, (h l hl).2.2⟩)

/-- The value returned by the read loop is the newline-join of the collected
stripped lines. -/
theorem ocrOutput_eq_joinNl (stream : List PyStr) :
    ocrOutput stream = joinNl (readLines stream) := by
  rw [ocrOutput]
  exact pyStrip_outputAcc (fun l hl =>
    ⟨(readLines_spec stream l hl).1, (readLines_spec stream l hl).2.1,
     (readLines_spec stream l hl).2.2.1⟩)

theorem ocrOutput_stripped (stream : List PyStr) :
    pyStrip (ocrOutput stream) = ocrOutput stream := by
  rw [ocrOutput]; exact pyStrip_idem _

theorem splitOnNl_no_nl {a : PyStr} (h : '\n' ∉ a) : splitOnNl a = [a] := by
  induction a with
  | nil => rfl
  | cons c r ih =>
    have hc : c ≠ '\n' := fun hcontra => h (hcontra ▸ List.mem_cons_self _ _)
    have hr : '\n' ∉ r := fun hcontra => h (List.mem_cons_of_mem _ hcontra)
    rw [splitOnNl, if_neg hc, ih hr]

theorem splitOnNl_append {a : PyStr} (r : PyStr) (h : '\n' ∉ a) :
    splitOnNl (a ++ '\n' :: r) = a :: splitOnNl r := by
  induction a with
  | nil => rw [List.nil_append, splitOnNl, if_pos rfl]
  | cons c a' ih =>
    have hc : c ≠ '\n' := fun hcontra => h (hcontra ▸ List.mem_cons_self _ _)
    have ha' : '\n' ∉ a' := fun hcontra => h (List.mem_cons_of_mem _ hcontra)
    rw [List.cons_append, splitOnNl, if_neg hc, ih ha']

/-- Splitting the newline-join of newline-free lines recovers the lines. -/
theorem splitOnNl_joinNl {ls : List PyStr} (hne : ls ≠ [])
    (h : ∀ l ∈ ls, '\n' ∉ l) :
    splitOnNl (joinNl ls) = ls := by
  induction ls with
  | nil => exact absurd rfl hne
  | cons a ls' ih =>
    cases ls' with
    | nil => exact splitOnNl_no_nl (h a (by simp))
    | cons b ls'' =>
      rw [joinNl_cons_cons, splitOnNl_append _ (h a (by simp)),
        ih (by simp) (fun l hl => h l (List.mem_cons_of_mem _ hl))]

/-! ### PowerShell host selection (src/__init__.py `_select_ps_exe`)

`ps7` and `ps51` are the module-level `PS7_PATH` / `PS51_PATH` values
(`shutil.which` results: a path if the executable was found, else `None`).
`pwsh.exe` is the modern host, `powershell.exe` the legacy one. -/

inductive SelectError where
  | noHost               -- RuntimeError("No PowerShell found.")
  | requestedUnavailable -- ValueError(f"PowerShell {ps_version} not available.")
deriving DecidableEq, Repr

def selectPsExe (ps7 ps51 : Option PyStr) (psVersion : PyStr) :
    Except SelectError PyStr :=
  if psVersion = str "auto" then
    match ps7 with
    | some p => .ok p
    | none =>
      match ps51 with
      | some p => .ok p
      | none => .error .noHost
  else if psVersion = str "7" then
    match ps7 with
    | some p => .ok p
    | none => .error .requestedUnavailable
  else if psVersion = str "5.1" then
    match ps51 with
    | some p => .ok p
    | none => .error .requestedUnavailable
  else .error .requestedUnavailable

/-- Which script variant a selected executable gets: `'pwsh' in self.ps_exe`. -/
inductive PsKind where
  | modern  -- pwsh.exe, PS_INIT_7 / PS_FUNCTION_7
  | legacy  -- powershell.exe, PS_INIT_51 / PS_FUNCTION_51
deriving DecidableEq, Repr

def psKindOf (exe : PyStr) : PsKind :=
  if hasSub (str "pwsh") exe then .modern else .legacy

/-! ### Session state and observable effects -/

/-- The spawned host process as `ocr_image` can observe it: whether the stdin
pipe still accepts writes, and the stdout lines available before EOF. -/
structure Proc where
  writeOk : Bool
  stdout : List PyStr
deriving DecidableEq, Repr

/-- `WinOCRSession` state relevant to the claims: `self.language` and
`self.process` (`None` after `close()`). -/
structure Session where
  language : PyStr
  process : Option Proc
deriving DecidableEq, Repr

/-- Externally visible side effects, in program order. -/
inductive Event where
  | spawn (exe : PyStr)        -- subprocess.Popen([...])
  | writeInit (k : PsKind)     -- stdin.write(self.ps_init)
  | writeFunc (k : PsKind)     -- stdin.write(self.ps_function)
  | writeLine (line : PyStr)   -- stdin.write(line + '\n'); flush
  | terminate                  -- process.terminate()
  | tempCreate (path : PyStr)  -- NamedTemporaryFile + image.save
  | unlink (path : PyStr)      -- os.unlink(path)
deriving DecidableEq, Repr

def Event.isFs : Event → Bool
  | .tempCreate _ => true
  | .unlink _ => true
  | _ => false

/-- The OS facilities `ocr_image` calls out to: `os.path.abspath` and the
temp-file name `tempfile.NamedTemporaryFile` generates, plus whether the
`PIL` import at module load succeeded. -/
structure Env where
  absPath : PyStr → PyStr
  tempName : PyStr
  pillowAvailable : Bool

inductive ImageInput where
  | path (p : PyStr)  -- a str argument
  | pillow            -- a PIL.Image.Image argument
deriving DecidableEq, Repr

/-- What `ocr_image` does at the caller boundary: return a text string,
return `None` (the `except` branch, after printing "OCR Error: ..."), or
raise `ImportError` (Pillow missing, raised outside the `try`). -/
inductive OcrResult where
  | text (s : PyStr)
  | retNone
  | importError
deriving DecidableEq, Repr

structure Outcome where
  result : OcrResult
  events : List Event
  post : Session
deriving DecidableEq, Repr

/-! ### Request encoding (src/__init__.py line 222)

`f"Convert-PsoImageToText -Path '{image_path}' -Language '{self.language}'"`
— plain interpolation between single quotes, no escaping of either value. -/

def cmdPathTag : PyStr := str "Convert-PsoImageToText -Path " ++ ['\'']

def cmdLangTag : PyStr := str " -Language " ++ ['\'']

def encodeCmd (imagePath lang : PyStr) : PyStr :=
  cmdPathTag ++ imagePath ++ '\'' :: cmdLangTag ++ lang ++ ['\'']

/-! ### `ocr_image` (src/__init__.py lines 210-239, first copy)

Control flow: staging (path → `abspath`, PIL image → temp file, both before
the `try`), then inside the `try`: write the command (raises if the pipe is
gone), read the response, unlink the temp file only on the success path,
return `output.strip()`; any exception is caught and `None` returned. -/

def ocrBody (sess : Session) (imagePath : PyStr) (isPillow : Bool)
    (staged : List Event) : Outcome :=
  match sess.process with
  | none =>
      -- self.process is None: AttributeError inside the try, caught.
      { result := .retNone, events := staged, post := sess }
  | some proc =>
      if proc.writeOk then
        { result := .text (ocrOutput proc.stdout)
          events := staged ++ [.writeLine (encodeCmd imagePath sess.language)]
            ++ (if isPillow then [.unlink imagePath] else [])
          post := sess }
      else
        -- stdin.write raised (dead pipe), caught by the except branch.
        { result := .retNone, events := staged, post := sess }

def ocrImage (env : Env) (sess : Session) (image : ImageInput) : Outcome :=
  match image with
  | .path p => ocrBody sess (env.absPath p) false []
  | .pillow =>
      if env.pillowAvailable then
        ocrBody sess env.tempName true [.tempCreate env.tempName]
      else
        { result := .importError, events := [], post := sess }

/-! ### `close` (src/__init__.py lines 241-247)

`close()` has no exception handling: when `self.process` is set it writes
the exit directive, flushes, terminates the process and nulls the handle.
If the host's stdin pipe is dead, the `stdin.write('exit\n')` / `flush()`
raises `BrokenPipeError` out of `close()` before `self.process = None` is
reached, so the session is left unchanged and no terminate happens. -/

structure CloseOutcome where
  raised : Bool        -- a BrokenPipeError propagated out of close()
  events : List Event
  post : Session
deriving DecidableEq, Repr

def close (s : Session) : CloseOutcome :=
  match s.process with
  | none => { raised := false, events := [], post := s }
  | some proc =>
      if proc.writeOk then
        { raised := false
          events := [.writeLine (str "exit"), .terminate]
          post := { s with process := none } }
      else
        { raised := true, events := [], post := s }

/-- Closing the session at index `i` of a collection of independent
sessions.  `close` reads and writes only the session it is called on, so
this is the whole-world effect of one `close()` call. -/
def closeAt : List Session → Nat → List Session
  | [], _ => []
  | s :: w, 0 => (close s).post :: w
  | s :: w, n + 1 => s :: closeAt w n

theorem closeAt_get_ne (w : List Session) (i j : Nat) (hij : i ≠ j) :
    (closeAt w i)[j]? = w[j]? := by
  induction w generalizing i j with
  | nil => rfl
  | cons s w ih =>
    cases i with
    | zero =>
      cases j with
      | zero => exact absurd rfl hij
      | succ j' => simp [closeAt]
    | succ n =>
      cases j with
      | zero => simp [closeAt]
      | succ j' =>
        simp only [closeAt, List.getElem?_cons_succ]
        exact ih n j' (fun h => hij (by rw [h]))

/-! ### `__init__` (src/__init__.py lines 164-170)

Selection happens first; only when it succeeds does `_initialize_session`
spawn the host and write the bootstrap payloads.  `spawned` stands for the
host process as it is after the bootstrap drain. -/

def initSession (ps7 ps51 : Option PyStr) (psVersion lang : PyStr)
    (spawned : Proc) : Except SelectError Session × List Event :=
  match selectPsExe ps7 ps51 psVersion with
  | .error e => (.error e, [])
  | .ok exe =>
      let k := psKindOf exe
      (.ok { language := lang, process := some spawned },
       [.spawn exe, .writeInit k, .writeFunc k])

/-! ### PowerShell single-quoted argument parsing

How the host tokenizes the command line `ocr_image` writes: inside a
single-quoted string, `''` is a literal quote and a single `'` closes the
string.  `psQuoted` consumes the content after an already-opened quote and
returns it together with the unconsumed remainder; `expectLit` consumes an
exact literal.  `decodeCmd` parses a whole command line back into the
`-Path` and `-Language` argument values. -/

def psQuoted : PyStr → Option (PyStr × PyStr)
  | [] => none  -- unterminated quoted string
  | c :: rest =>
      if c = '\'' then
        match rest with
        | [] => some ([], [])
        | d :: rest2 =>
            if d = '\'' then
              match psQuoted rest2 with
              | some p => some ('\'' :: p.1, p.2)
              | none => none
            else some ([], d :: rest2)
      else
        match psQuoted rest with
        | some p => some (c :: p.1, p.2)
        | none => none

def expectLit : PyStr → PyStr → Option PyStr
  | [], s => some s
  | _ :: _, [] => none
  | c :: cs, d :: ds => if c = d then expectLit cs ds else none

def decodeCmd (cmd : PyStr) : Option (PyStr × PyStr × PyStr) :=
  match expectLit cmdPathTag cmd with
  | none => none
  | some r1 =>
    match psQuoted r1 with
    | none => none
    | some (path, r2) =>
      match expectLit cmdLangTag r2 with
      | none => none
      | some r3 =>
        match psQuoted r3 with
        | none => none
        | some (lang, r4) => some (path, lang, r4)

theorem expectLit_append (lit r : PyStr) : expectLit lit (lit ++ r) = some r := by
  induction lit with
  | nil => rfl
  | cons c cs ih => rw [List.cons_append, expectLit, if_pos rfl, ih]

/-- A quote-free content followed by a closing quote and a remainder not
starting with a quote parses back to exactly that content. -/
theorem psQuoted_clean (xs rest : PyStr) (hx : '\'' ∉ xs)
    (hr : ∀ r', rest ≠ '\'' :: r') :
    psQuoted (xs ++ '\'' :: rest) = some (xs, rest) := by
  induction xs with
  | nil =>
    rw [List.nil_append, psQuoted.eq_def]
    cases rest with
    | nil => simp
    | cons d r2 =>
      have hd : d ≠ '\'' := fun hcontra => hr r2 (by rw [hcontra])
      simp [hd]
  | cons c cs ih =>
    have hc : c ≠ '\'' := fun hcontra => hx (hcontra ▸ List.mem_cons_self _ _)
    have hcs : '\'' ∉ cs := fun hcontra => hx (List.mem_cons_of_mem _ hcontra)
    rw [List.cons_append, psQuoted.eq_def]
    simp [hc, ih hcs]

/-- For quote-free argument values the command line parses back to exactly
those values. -/
theorem decode_encode {path lang : PyStr} (hp : '\'' ∉ path) (hl : '\'' ∉ lang) :
    decodeCmd (encodeCmd path lang) = some (path, lang, []) := by
  have h1 : ∀ r', cmdLangTag ++ (lang ++ ['\'']) ≠ '\'' :: r' := by
    intro r' hcontra
    have hh := congrArg List.head? hcontra
    rw [show (cmdLangTag ++ (lang ++ ['\''])).head? = some ' ' from rfl] at hh
    simp at hh
  have h2 : ∀ r', ([] : PyStr) ≠ '\'' :: r' := by intro r' hcontra; exact absurd hcontra (by simp)
  have hq1 := psQuoted_clean path (cmdLangTag ++ (lang ++ ['\''])) hp h1
  have hq2 := psQuoted_clean lang [] hl h2
  simp only [decodeCmd, encodeCmd, List.append_assoc, List.cons_append,
    expectLit_append, hq1, hq2]

/-! ### Stream-shape lemmas used for the end-of-stream claim -/

/-- With no blank line in the stream, the loop collects every line. -/
theorem readLines_no_blank {stream : List PyStr}
    (h : ∀ raw ∈ stream, pyStrip raw ≠ []) :
    readLines stream = stream.map pyStrip := by
  induction stream with
  | nil => rfl
  | cons l rest ih =>
    rw [readLines, if_neg (h l (List.mem_cons_self _ _)), List.map_cons,
      ih (fun raw hraw => h raw (List.mem_cons_of_mem _ hraw))]

/-- Appending the blank terminator after a blank-free stream collects the
same lines: EOF and the blank terminator are indistinguishable to the loop. -/
theorem readLines_append_blank {stream : List PyStr}
    (h : ∀ raw ∈ stream, pyStrip raw ≠ []) :
    readLines (stream ++ [[]]) = readLines stream := by
  induction stream with
  | nil => rfl
  | cons l rest ih =>
    rw [List.cons_append, readLines, readLines,
      if_neg (h l (List.mem_cons_self _ _)), if_neg (h l (List.mem_cons_self _ _)),
      ih (fun raw hraw => h raw (List.mem_cons_of_mem _ hraw))]

/-- `ocr_image` produces a `.text` result only from a live, writable
process, and that text is the read loop's output on the process's stdout. -/
theorem ocrBody_text_inversion {sess : Session} {imagePath : PyStr}
    {isPillow : Bool} {staged : List Event} {s : PyStr}
    (h : (ocrBody sess imagePath isPillow staged).result = .text s) :
    ∃ proc, sess.process = some proc ∧ proc.writeOk = true ∧
      s = ocrOutput proc.stdout := by
  cases hp : sess.process with
  | none => simp only [ocrBody, hp] at h; exact absurd h (by simp)
  | some proc =>
    by_cases hw : proc.writeOk
    · simp only [ocrBody, hp, hw, if_true] at h
      exact ⟨proc, rfl, hw, by injection h with h2; exact h2.symm⟩
    · simp only [ocrBody, hp, if_neg hw] at h
      exact absurd h (by simp)

theorem ocrImage_text_inversion {env : Env} {sess : Session} {image : ImageInput}
    {s : PyStr} (h : (ocrImage env sess image).result = .text s) :
    ∃ proc, sess.process = some proc ∧ proc.writeOk = true ∧
      s = ocrOutput proc.stdout := by
  cases image with
  | path p => exact ocrBody_text_inversion h
  | pillow =>
    rw [ocrImage] at h
    by_cases hpil : env.pillowAvailable
    · rw [if_pos hpil] at h; exact ocrBody_text_inversion h
    · rw [if_neg hpil] at h; exact absurd h (by simp)

/-! ### Concrete fixtures used by the closed theorems below -/

/-- An OS environment: identity `abspath`, a fixed temp-file name, Pillow
importable. -/
def envW : Env :=
  { absPath := fun p => p, tempName := str "/tmp/ocr.png", pillowAvailable := true }

/-- A session whose host died: stdin writes raise, nothing on stdout. -/
def sessDead : Session :=
  { language := str "en-US", process := some { writeOk := false, stdout := [] } }

/-- A live session whose host emits `Hello` and then hits end-of-stream
with no blank terminator line. -/
def procEOF : Proc := { writeOk := true, stdout := [str "Hello"] }

def sessEOF : Session := { language := str "en-US", process := some procEOF }

/-- The same output properly terminated by the protocol's blank line. -/
def procTerm : Proc := { writeOk := true, stdout := [str "Hello", []] }

def sessTerm : Session := { language := str "en-US", process := some procTerm }

/-- A freshly bootstrapped live session. -/
def sessLive : Session :=
  { language := str "en-US", process := some { writeOk := true, stdout := [] } }

/-- `str(type(image))` for a Pillow image: the class lives in module `PIL`,
not `Pillow`. -/
def pillowTypeStr : PyStr :=
  str "<class " ++ '\'' :: str "PIL.Image.Image" ++ '\'' :: str ">"

/-! ### Claims -/

/-- C1: the spec requires that for every in-memory (Pillow) image input the
staged temporary file is deleted on every exit path of `ocr_image`.  The
code violates this: when the command write raises (dead pipe), the `except`
branch returns `None` without reaching the `os.unlink` call, leaving the
temp file on disk (first copy, lines 217-239); and in the file's second
copy (lines 364-365) the deletion guard `'Pillow.Image.Image' in
str(type(image))` can never be true because Pillow's type string is
`<class 'PIL.Image.Image'>`, so the temp file is never deleted at all.
This theorem evaluates `ocr_image` at the failing input: the trace holds
the temp-file creation and no unlink, and the second copy's guard is false. -/
theorem tempfile_leak_on_write_failure :
    (ocrImage envW sessDead .pillow).result = .retNone
    ∧ (ocrImage envW sessDead .pillow).events = [.tempCreate envW.tempName]
    ∧ hasSub (str "Pillow.Image.Image") pillowTypeStr = false :=
  ⟨rfl, rfl, by decide⟩

/-- C2 counterexample: the read loop of `ocr_image` treats end-of-stream
exactly like the blank terminator (`readline()` returns `''` at EOF, which
strips to the empty line that breaks the loop).  On a stream that ends
before any blank line the call returns the partial text as a normal
result — identical to the properly terminated response — no
`SessionLost`-style error is surfaced, the session state is unchanged, and
a subsequent call still writes a command into the pipe. -/
theorem eof_indistinguishable_from_blank :
    (ocrImage envW sessEOF (.path (str "x"))).result = .text (str "Hello")
    ∧ (ocrImage envW sessEOF (.path (str "x"))).result
        = (ocrImage envW sessTerm (.path (str "x"))).result
    ∧ (ocrImage envW sessEOF (.path (str "x"))).post = sessEOF
    ∧ (ocrImage envW ((ocrImage envW sessEOF (.path (str "x"))).post)
        (.path (str "x"))).events
        = [.writeLine (encodeCmd (str "x") (str "en-US"))] := by
  refine ⟨by decide, by decide, by decide, by decide⟩

/-- C2 as amended: if the host's output stream reaches end-of-stream before
a blank terminator line, `ocr_image` returns the lines collected so far as
a normal string result (the same result the blank terminator would give);
no distinct error is raised and the session state is left unchanged, so
subsequent calls still write commands. -/
theorem eof_returns_partial_as_normal (env : Env) (lang : PyStr) (proc : Proc)
    (p : PyStr) (hw : proc.writeOk = true)
    (hnb : ∀ raw ∈ proc.stdout, pyStrip raw ≠ []) :
    (ocrImage env ⟨lang, some proc⟩ (.path p)).result
        = .text (joinNl (proc.stdout.map pyStrip))
    ∧ (ocrImage env ⟨lang, some proc⟩ (.path p)).result
        = (ocrImage env ⟨lang, some ⟨proc.writeOk, proc.stdout ++ [[]]⟩⟩
            (.path p)).result
    ∧ (ocrImage env ⟨lang, some proc⟩ (.path p)).post = ⟨lang, some proc⟩ := by
  refine ⟨?_, ?_, ?_⟩
  · simp only [ocrImage, ocrBody, hw, if_true]
    rw [ocrOutput_eq_joinNl, readLines_no_blank hnb]
  · simp only [ocrImage, ocrBody, hw, if_true]
    rw [ocrOutput_eq_joinNl, ocrOutput_eq_joinNl, readLines_append_blank hnb]
  · simp only [ocrImage, ocrBody, hw, if_true]

theorem eof_returns_partial_as_normal_witness :
    (ocrImage envW ⟨str "en-US", some procEOF⟩ (.path (str "x"))).result
        = .text (joinNl (procEOF.stdout.map pyStrip))
    ∧ (ocrImage envW ⟨str "en-US", some procEOF⟩ (.path (str "x"))).result
        = (ocrImage envW ⟨str "en-US", some ⟨procEOF.writeOk, procEOF.stdout ++ [[]]⟩⟩
            (.path (str "x"))).result
    ∧ (ocrImage envW ⟨str "en-US", some procEOF⟩ (.path (str "x"))).post
        = ⟨str "en-US", some procEOF⟩ :=
  eof_returns_partial_as_normal envW (str "en-US") procEOF (str "x") rfl (by decide)

/-- C3 counterexample: the command encoder interpolates the path and the
language between single quotes with no escaping, so an embedded quote in
the path terminates the quoted argument prematurely: the resulting line no
longer parses as a well-formed command (while the same quote-free call
round-trips fine, showing the parser is not at fault). -/
theorem encode_quote_breaks_command :
    decodeCmd (encodeCmd (str "a" ++ '\'' :: str "b") (str "en")) = none
    ∧ decodeCmd (encodeCmd (str "a" ++ '\'' :: str "b") (str "en"))
        ≠ some (str "a" ++ '\'' :: str "b", str "en", [])
    ∧ decodeCmd (encodeCmd (str "ab") (str "en")) = some (str "ab", str "en", []) :=
  ⟨by decide, by decide, by decide⟩

/-- C3 as amended: the encoder performs no quote escaping; only for a path
and language containing no single-quote character does the produced command
line parse back to exactly those two values (an embedded quote does
terminate the command's quoted argument prematurely). -/
theorem encode_roundtrip_quote_free (path lang : PyStr)
    (hp : '\'' ∉ path) (hl : '\'' ∉ lang) :
    decodeCmd (encodeCmd path lang) = some (path, lang, []) :=
  decode_encode hp hl

theorem encode_roundtrip_quote_free_witness :
    decodeCmd (encodeCmd (str "C:img.png") (str "en-US"))
      = some (str "C:img.png", str "en-US", []) :=
  encode_roundtrip_quote_free (str "C:img.png") (str "en-US") (by decide) (by decide)

/-- C4: the read loop collects host lines (each stripped) until the first
whitespace-only line; the returned string is exactly those nonempty lines,
in order, joined with newlines, and the overall trim is a no-op; when the
blank terminator comes immediately, the result is the empty string, and it
is delivered through the normal `.text` return, not as an error. -/
theorem ocr_collect_join_trim :
    (∀ stream, ocrOutput stream = joinNl (readLines stream))
    ∧ (∀ stream, pyStrip (ocrOutput stream) = ocrOutput stream)
    ∧ (∀ l rest, pyStrip l = [] → ocrOutput (l :: rest) = [])
    ∧ (∀ env lang proc p, proc.writeOk = true →
        (ocrImage env ⟨lang, some proc⟩ (.path p)).result
          = .text (ocrOutput proc.stdout)) := by
  refine ⟨ocrOutput_eq_joinNl, ocrOutput_stripped, ?_, ?_⟩
  · intro l rest h
    rw [ocrOutput, readLines, if_pos h]
    rfl
  · intro env lang proc p hw
    simp only [ocrImage, ocrBody, hw, if_true]

theorem ocr_collect_join_trim_witness :
    ocrOutput [[' ']] = []
    ∧ (ocrImage envW ⟨str "en-US", some ⟨true, [[' ']]⟩⟩ (.path (str "x"))).result
        = .text (ocrOutput [[' ']]) :=
  ⟨ocr_collect_join_trim.2.2.1 [' '] [] (by decide),
   ocr_collect_join_trim.2.2.2 envW (str "en-US") ⟨true, [[' ']]⟩ (str "x") rfl⟩

/-- C5: host selection policy.  Under `'auto'`, the modern host (`pwsh`) is
preferred, else the legacy host, else `RuntimeError` (NoHostAvailable);
under an explicit `'7'` or `'5.1'` request exactly that candidate is
returned when present and `ValueError` (RequestedHostUnavailable) raised
otherwise; an explicit request is never satisfied by the other variant
(the last two conjuncts). -/
theorem select_ps_exe_policy (ps7 ps51 : Option PyStr) :
    (∀ p, ps7 = some p → selectPsExe ps7 ps51 (str "auto") = .ok p)
    ∧ (∀ p, ps7 = none → ps51 = some p → selectPsExe ps7 ps51 (str "auto") = .ok p)
    ∧ (ps7 = none → ps51 = none → selectPsExe ps7 ps51 (str "auto") = .error .noHost)
    ∧ (∀ p, ps7 = some p → selectPsExe ps7 ps51 (str "7") = .ok p)
    ∧ (ps7 = none → selectPsExe ps7 ps51 (str "7") = .error .requestedUnavailable)
    ∧ (∀ p, ps51 = some p → selectPsExe ps7 ps51 (str "5.1") = .ok p)
    ∧ (ps51 = none → selectPsExe ps7 ps51 (str "5.1") = .error .requestedUnavailable)
    ∧ (∀ r, selectPsExe ps7 ps51 (str "7") = .ok r → ps7 = some r)
    ∧ (∀ r, selectPsExe ps7 ps51 (str "5.1") = .ok r → ps51 = some r) := by
  have d2 : ¬((str "7" : PyStr) = str "auto") := by decide
  have d4 : ¬((str "5.1" : PyStr) = str "auto") := by decide
  have d5 : ¬((str "5.1" : PyStr) = str "7") := by decide
  refine ⟨?_, ?_, ?_, ?_, ?_, ?_, ?_, ?_, ?_⟩
  · intro p h; rw [selectPsExe.eq_def, if_pos rfl, h]
  · intro p h7 h51; rw [selectPsExe.eq_def, if_pos rfl, h7, h51]
  · intro h7 h51; rw [selectPsExe.eq_def, if_pos rfl, h7, h51]
  · intro p h; rw [selectPsExe.eq_def, if_neg d2, if_pos rfl, h]
  · intro h; rw [selectPsExe.eq_def, if_neg d2, if_pos rfl, h]
  · intro p h; rw [selectPsExe.eq_def, if_neg d4, if_neg d5, if_pos rfl, h]
  · intro h; rw [selectPsExe.eq_def, if_neg d4, if_neg d5, if_pos rfl, h]
  · intro r h
    rw [selectPsExe.eq_def, if_neg d2, if_pos rfl] at h
    cases hp : ps7 with
    | some q => rw [hp] at h; injection h with h2; rw [h2]
    | none => rw [hp] at h; exact absurd h (by simp)
  · intro r h
    rw [selectPsExe.eq_def, if_neg d4, if_neg d5, if_pos rfl] at h
    cases hp : ps51 with
    | some q => rw [hp] at h; injection h with h2; rw [h2]
    | none => rw [hp] at h; exact absurd h (by simp)

theorem select_ps_exe_policy_witness :
    selectPsExe (some (str "pwsh")) (some (str "powershell")) (str "auto")
      = .ok (str "pwsh")
    ∧ selectPsExe none (some (str "powershell")) (str "auto")
      = .ok (str "powershell")
    ∧ selectPsExe none none (str "auto") = .error .noHost
    ∧ selectPsExe (some (str "pwsh")) none (str "7") = .ok (str "pwsh")
    ∧ selectPsExe none none (str "7") = .error .requestedUnavailable
    ∧ selectPsExe none (some (str "powershell")) (str "5.1")
      = .ok (str "powershell")
    ∧ selectPsExe none none (str "5.1") = .error .requestedUnavailable
    ∧ (some (str "pwsh") : Option PyStr) = some (str "pwsh")
    ∧ (some (str "powershell") : Option PyStr) = some (str "powershell") :=
  ⟨(select_ps_exe_policy _ _).1 _ rfl,
   (select_ps_exe_policy none _).2.1 _ rfl rfl,
   (select_ps_exe_policy none none).2.2.1 rfl rfl,
   (select_ps_exe_policy _ none).2.2.2.1 _ rfl,
   (select_ps_exe_policy none none).2.2.2.2.1 rfl,
   (select_ps_exe_policy none _).2.2.2.2.2.1 _ rfl,
   (select_ps_exe_policy none none).2.2.2.2.2.2.1 rfl,
   (select_ps_exe_policy (some (str "pwsh")) none).2.2.2.2.2.2.2.1 _ rfl,
   (select_ps_exe_policy none (some (str "powershell"))).2.2.2.2.2.2.2.2 _ rfl⟩

/-- C6 counterexample: after `close()` sets `self.process = None`, a
subsequent `ocr_image` call hits an `AttributeError` inside the `try`,
which the blanket `except` converts into the generic `None` return (after
printing "OCR Error: ...").  The caller sees exactly the same outcome as
for an unrelated failure such as a dead stdin pipe — there is no distinct
`SessionClosed` error identifying the programming error. -/
theorem closed_session_generic_none :
    (ocrImage envW (close sessLive).post (.path (str "x"))).result = .retNone
    ∧ (ocrImage envW (close sessLive).post (.path (str "x"))).result
        = (ocrImage envW sessDead (.path (str "x"))).result :=
  ⟨rfl, rfl⟩

/-- C6 as amended: after `close()`, every subsequent `ocr_image` call
returns `None` through the generic exception handler — it never succeeds,
but it also raises no distinct `SessionClosed` error (assuming the module's
Pillow import succeeded, so the pre-`try` Pillow check cannot raise
first).  This holds whether `close()` completed (process nulled, next call
hits the `AttributeError`) or itself raised on a dead pipe (process still
set but unwritable, next call hits the `BrokenPipeError`). -/
theorem ocr_after_close_returns_none (env : Env) (s : Session)
    (image : ImageInput) (hp : env.pillowAvailable = true) :
    (ocrImage env (close s).post image).result = .retNone := by
  cases hs : s.process with
  | none =>
    have hpost : (close s).post = s := by simp only [close, hs]
    rw [hpost]
    cases image with
    | path p => simp only [ocrImage, ocrBody, hs]
    | pillow => simp only [ocrImage, hp, if_true, ocrBody, hs]
  | some proc =>
    by_cases hw : proc.writeOk
    · have hpost : (close s).post.process = none := by
        simp only [close, hs, hw, if_true]
      cases image with
      | path p => simp only [ocrImage, ocrBody, hpost]
      | pillow => simp only [ocrImage, hp, if_true, ocrBody, hpost]
    · have hpost : (close s).post = s := by simp only [close, hs, if_neg hw]
      rw [hpost]
      cases image with
      | path p => simp only [ocrImage, ocrBody, hs, if_neg hw]
      | pillow => simp only [ocrImage, hp, if_true, ocrBody, hs, if_neg hw]

theorem ocr_after_close_returns_none_witness :
    (ocrImage envW (close sessLive).post (.path (str "y"))).result = .retNone :=
  ocr_after_close_returns_none envW sessLive (.path (str "y")) rfl

/-- C7: the constructor calls `_select_ps_exe` before `_initialize_session`;
when selection fails the exception propagates out of `__init__` before any
`Popen` happens, so the event trace is empty (in particular no spawn) and
no session object — partially usable or otherwise — is produced. -/
theorem select_failure_before_spawn (ps7 ps51 : Option PyStr)
    (psVersion lang : PyStr) (spawned : Proc) (e : SelectError)
    (h : selectPsExe ps7 ps51 psVersion = .error e) :
    initSession ps7 ps51 psVersion lang spawned = (.error e, []) := by
  simp only [initSession, h]

theorem select_failure_before_spawn_witness :
    initSession none none (str "5.1") (str "en-US") ⟨true, []⟩
      = (.error .requestedUnavailable, []) :=
  select_failure_before_spawn none none (str "5.1") (str "en-US") ⟨true, []⟩
    .requestedUnavailable rfl

/-- C8 counterexample: `close()` has no exception handling, so on a
session whose host process died (dead stdin pipe) the exit-directive write
raises `BrokenPipeError` before `self.process = None` is reached: the
session is left unchanged and a second `close()` call raises again — the
claim's "calling close() a second time does not raise" is false at this
input. -/
theorem close_raises_on_dead_pipe :
    (close sessDead).raised = true
    ∧ (close sessDead).post = sessDead
    ∧ (close (close sessDead).post).raised = true
    ∧ close (close sessDead).post = close sessDead :=
  ⟨rfl, rfl, rfl, rfl⟩

/-- C8 as amended: `close()` is idempotent when the first call can
complete — for a session already closed or whose host stdin pipe is still
writable, the second `close()` raises nothing, has no effect, and the exit
directive and process termination happen at most once across both calls.
On a session whose host died, `close()` raises `BrokenPipeError` before
clearing `self.process`, leaving the session unchanged with nothing
terminated (second conjunct).  Closing the session at one index of a
collection of sessions leaves every other session unchanged (third
conjunct): sessions share no state. -/
theorem close_idempotent_of_writable (s t : Session) (w : List Session)
    (i j : Nat) (hij : i ≠ j) :
    ((s.process = none ∨ ∃ proc, s.process = some proc ∧ proc.writeOk = true) →
      (close s).raised = false
      ∧ close (close s).post = ⟨false, [], (close s).post⟩
      ∧ ((close s).events ++ (close (close s).post).events).count
          Event.terminate ≤ 1)
    ∧ (∀ proc, t.process = some proc → proc.writeOk = false →
        (close t).raised = true ∧ (close t).post = t ∧ (close t).events = [])
    ∧ (closeAt w i)[j]? = w[j]? := by
  refine ⟨?_, ?_, closeAt_get_ne w i j hij⟩
  · rintro (hnone | ⟨proc, hp, hw⟩)
    · have h1 : close s = ⟨false, [], s⟩ := by simp only [close, hnone]
      refine ⟨by rw [h1], ?_, ?_⟩
      · rw [h1]; exact h1
      · simp only [h1, h1]
        decide
    · have h1 : close s =
          ⟨false, [.writeLine (str "exit"), .terminate],
            { s with process := none }⟩ := by
        simp only [close, hp, hw, if_true]
      have h2 : close { s with process := none } =
          ⟨false, [], { s with process := none }⟩ := by
        simp only [close]
      refine ⟨by rw [h1], ?_, ?_⟩
      · rw [h1]; exact h2
      · simp only [h1, h2]
        decide
  · intro proc hp hw
    have h1 : close t = ⟨true, [], t⟩ := by
      simp [close, hp, hw]
    exact ⟨by rw [h1], by rw [h1], by rw [h1]⟩

theorem close_idempotent_of_writable_witness :
    ((close sessLive).raised = false
      ∧ close (close sessLive).post = ⟨false, [], (close sessLive).post⟩
      ∧ ((close sessLive).events ++ (close (close sessLive).post).events).count
          Event.terminate ≤ 1)
    ∧ ((close sessDead).raised = true ∧ (close sessDead).post = sessDead
        ∧ (close sessDead).events = [])
    ∧ (closeAt [sessLive, sessDead] 0)[1]? = [sessLive, sessDead][1]? := by
  obtain ⟨h1, h2, h3⟩ :=
    close_idempotent_of_writable sessLive sessDead [sessLive, sessDead] 0 1
      (by decide)
  exact ⟨h1 (Or.inr ⟨⟨true, []⟩, rfl, rfl⟩), h2 ⟨false, []⟩ rfl rfl, h3⟩

/-- C9: for a string (path) input `ocr_image` touches no files: its event
trace contains no temp-file creation and no unlink (the deletion branch is
unreachable because the input is not a Pillow image), the only events are
at most the single command write, the path embedded in that command is the
`abspath`-resolved caller path, and the session state is unchanged. -/
theorem path_input_no_fs_mutation (env : Env) (sess : Session) (p : PyStr) :
    ((ocrImage env sess (.path p)).events.all (fun e => !e.isFs)) = true
    ∧ ((ocrImage env sess (.path p)).events = []
       ∨ (ocrImage env sess (.path p)).events
         = [.writeLine (encodeCmd (env.absPath p) sess.language)])
    ∧ (ocrImage env sess (.path p)).post = sess := by
  cases hs : sess.process with
  | none =>
    refine ⟨?_, Or.inl ?_, ?_⟩ <;> simp only [ocrImage, ocrBody, hs, List.all_nil]
  | some proc =>
    by_cases hw : proc.writeOk
    · refine ⟨?_, Or.inr ?_, ?_⟩ <;>
        simp [ocrImage, ocrBody, hs, hw, Event.isFs]
    · refine ⟨?_, Or.inl ?_, ?_⟩ <;>
        simp only [ocrImage, ocrBody, hs, if_neg hw, List.all_nil]

/-- C10: whenever `ocr_image` returns a string, that string is a fixed
point of stripping (no leading or trailing whitespace) and each of its
constituent lines is nonempty, itself fully stripped, and is the strip of
some line the host emitted; whitespace-only host lines never appear (the
hypothesis says host `readline` lines carry no interior newline, which is
what a line-based read guarantees). -/
theorem ocr_result_lines_stripped (env : Env) (sess : Session)
    (image : ImageInput) (s : PyStr)
    (hnl : ∀ proc, sess.process = some proc → ∀ raw ∈ proc.stdout, '\n' ∉ raw)
    (h : (ocrImage env sess image).result = .text s) :
    pyStrip s = s ∧ ∀ l ∈ linesOf s, l ≠ [] ∧ pyStrip l = l ∧
      ∃ proc raw, sess.process = some proc ∧ raw ∈ proc.stdout ∧ l = pyStrip raw := by
  obtain ⟨proc, hproc, hw, hs⟩ := ocrImage_text_inversion h
  subst hs
  refine ⟨ocrOutput_stripped _, ?_⟩
  have hspec := readLines_spec proc.stdout
  have hnl' : ∀ l ∈ readLines proc.stdout, '\n' ∉ l := by
    intro l hl hmem
    obtain ⟨_, _, _, raw, hraw, hlraw⟩ := hspec l hl
    exact hnl proc hproc raw hraw (mem_pyStrip (hlraw ▸ hmem))
  rw [ocrOutput_eq_joinNl]
  cases hrl : readLines proc.stdout with
  | nil =>
    intro l hl
    rw [joinNl] at hl
    simp [linesOf] at hl
  | cons a ls' =>
    have hane : a ≠ [] := (hspec a (by rw [hrl]; exact List.mem_cons_self _ _)).1
    have hJne : joinNl (a :: ls') ≠ [] := joinNl_ne_nil ls' hane
    have hsplit : splitOnNl (joinNl (a :: ls')) = a :: ls' :=
      splitOnNl_joinNl (by simp) (fun l hl => hnl' l (hrl ▸ hl))
    intro l hl
    rw [linesOf, if_neg hJne, hsplit] at hl
    obtain ⟨h1, h2, h3, raw, hraw, hlraw⟩ := hspec l (hrl ▸ hl)
    exact ⟨h1, pyStrip_of_stripped h2 h3, proc, raw, hproc, hraw, hlraw⟩

theorem ocr_result_lines_stripped_witness :
    pyStrip (str "Hello") = str "Hello"
    ∧ ∀ l ∈ linesOf (str "Hello"), l ≠ [] ∧ pyStrip l = l ∧
        ∃ proc raw, sessEOF.process = some proc ∧ raw ∈ proc.stdout ∧
          l = pyStrip raw :=
  ocr_result_lines_stripped envW sessEOF (.path (str "x")) (str "Hello")
    (fun proc hp => by
      have hp' : some procEOF = some proc := hp
      injection hp' with h2
      subst h2
      decide)
    (by decide)

end WinOCR
